import Mathlib

/-!
Verification of the dispatch/admission layer of the telegram-bot-notification-api
webhook service.  All definitions are shallow embeddings of the JavaScript in
`src/index.js`; the line numbers in the doc comments refer to that file.

Modelling conventions:
* The redis hash `thread_queue_lengths` is a partial map from thread identifiers
  to integers (`none` = key absent).  `Number(await redis.hGet(...)) || 0`
  reads an absent key as `0`; `... || 1` reads an absent key (or a stored `0`)
  as `1`.
* JavaScript `try/catch` is embedded with `Except`: a body that can throw is an
  `Except String α` value, and the catch handler turns it into a plain value.
* Asynchronous interleaving is modelled by labelled transition systems: one
  event per block of code between suspension points, with traces as lists of
  events.  A finer model that splits the hGet/hSet pair of a read-modify-write
  into separate events is used to analyse lost updates under concurrent
  deliveries.
-/

namespace TelegramBot

/-! ## The distributed counter store (`thread_queue_lengths`) -/

/-- The redis hash `thread_queue_lengths`: thread identifier to stored integer,
`none` when the key is absent. -/
def Store : Type := String → Option Int

/-- Store with no keys. -/
def emptyStore : Store := fun _ => none

/-- `redis.hSet(h, k, v)` restricted to one hash. -/
def hSet (q : Store) (k : String) (v : Int) : Store :=
  fun k' => if k' = k then some v else q k'

/-- `redis.hDel(h, k)` restricted to one hash. -/
def hDel (q : Store) (k : String) : Store :=
  fun k' => if k' = k then none else q k'

/-- `Number(await redis.hGet(h, k)) || 0` (src/index.js:358): an absent key
reads as `0`. -/
def hGetD0 (q : Store) (k : String) : Int := (q k).getD 0

/-- `Number(await redis.hGet(h, k)) || 1` (src/index.js:369): an absent key,
and also a stored `0`, reads as `1`. -/
def hGetD1 (q : Store) (k : String) : Int :=
  if (q k).getD 0 = 0 then 1 else (q k).getD 0

/-- Admission check and increment for an established thread,
src/index.js:358-365: read `queueLength`; if it is at least 3, reject without
touching the store; otherwise write `queueLength + 1` and accept the unit. -/
def tryAdmit (q : Store) (t : String) : Bool × Store :=
  if 3 ≤ hGetD0 q t then (false, q)
  else (true, hSet q t (hGetD0 q t + 1))

/-- Release step from the `finally` handler, src/index.js:369-375: read
`currentLength` (absent key reads as 1); if it is at most 1 delete the key,
otherwise write `currentLength - 1`. -/
def release (q : Store) (t : String) : Store :=
  if hGetD1 q t ≤ 1 then hDel q t
  else hSet q t (hGetD1 q t - 1)

/-- Store-level events: an admission attempt or a release for a thread. -/
inductive QEv
  | adm (t : String)
  | rel (t : String)

/-- Effect of one store-level event. -/
def qStep (q : Store) : QEv → Store
  | QEv.adm t => (tryAdmit q t).2
  | QEv.rel t => release q t

/-- Run a list of store-level events from a given store. -/
def qRunFrom (q : Store) (es : List QEv) : Store := es.foldl qStep q

/-- Run a list of store-level events from the empty store. -/
def qRun (es : List QEv) : Store := qRunFrom emptyStore es

/-- Invariant of the counter store: every stored value lies in `[1, 3]`
(an absent key denotes depth 0, so the depth is never negative and never
exceeds 3). -/
def StoreInv (q : Store) : Prop := ∀ t n, q t = some n → 1 ≤ n ∧ n ≤ 3

/-! ## Webhook dispatch decision (src/index.js:355-387) -/

/-- How the webhook handler dispatches one incoming message. -/
inductive Dispatch
  | immediate
  | rejected
  | enqueued
deriving DecidableEq

/-- Result of the dispatch decision: the chosen path, the updated counter
store, whether the "too many requests" notification was sent, and whether
`processRequest` gets invoked (now or queued). -/
structure HandleRes where
  dispatch : Dispatch
  store : Store
  notifiedLimit : Bool
  invokesProcessor : Bool

/-- Dispatch decision of the webhook handler, src/index.js:355-387: with no
stored thread identifier, `processRequest()` is called immediately with no
depth check (lines 384-387); with a thread identifier, depth at least 3 sends
the rejection notification and returns (lines 358-362), otherwise the counter
is incremented and the work is chained (lines 364-382). -/
def handleDispatch (q : Store) (threadId : Option String) : HandleRes :=
  match threadId with
  | none =>
    { dispatch := Dispatch.immediate, store := q,
      notifiedLimit := false, invokesProcessor := true }
  | some t =>
    if 3 ≤ hGetD0 q t then
      { dispatch := Dispatch.rejected, store := q,
        notifiedLimit := true, invokesProcessor := false }
    else
      { dispatch := Dispatch.enqueued, store := hSet q t (hGetD0 q t + 1),
        notifiedLimit := false, invokesProcessor := true }

/-- The thread lookup `const threadId = await redis.hGet("chat_threads", ...)`
(src/index.js:241) composed with the dispatch decision.  The `await` is not
wrapped in any `try/catch`, so a failing store call rejects the whole handler:
the failure propagates (`Except.error`) and the dispatch decision is never
reached. -/
def webhookDispatch (lookup : Except Unit (Option String)) (q : Store) :
    Except Unit HandleRes :=
  match lookup with
  | Except.error e => Except.error e
  | Except.ok threadId => Except.ok (handleDispatch q threadId)

/-! ## try/catch embeddings (`sendNotification`, `processRequest`) -/

/-- JavaScript `try { body } catch (e) { handler }` where every path of the
body returns a value of type `α`. -/
def tryCatch {α : Type} (body : Except String α) (handler : String → α) : α :=
  match body with
  | Except.ok a => a
  | Except.error e => handler e

/-- The successful payload of `axios.post` to the telegram API: `res.data.result`
modelled opaquely. -/
structure TgResponse where
  result : String

/-- What `sendNotification` returns: `{ ok: true, data: res.data.result }` or
`{ error: e.message }`. -/
inductive SendRes
  | ok (data : String)
  | err (message : String)
deriving DecidableEq

/-- `sendNotification` (src/index.js:58-71): the whole body is inside
`try/catch`; the outcome of the relay call is the `Except` argument.  On
success it returns `{ ok: true, data: res.data.result }`, on any failure the
catch returns `{ error: e.message }`; it never rethrows. -/
def sendNotification (post : Except String TgResponse) : SendRes :=
  tryCatch (Except.map (fun res => SendRes.ok res.result) post)
    (fun e => SendRes.err e)

/-- Outcome of one `processRequest` invocation. -/
inductive ProcOut
  | done
  | loggedError (msg : String)
deriving DecidableEq

/-- `processRequest` (src/index.js:267-353): the entire body (progress message,
completion-service call, chunked relay, persistence) sits inside one
`try { ... } catch (error) { console.warn(...) }`, so whatever the body's
outcome (the `Except` argument), the function returns normally and its promise
fulfills. -/
def processRequest (body : Except String Unit) : ProcOut :=
  tryCatch (Except.map (fun _ => ProcOut.done) body)
    (fun e => ProcOut.loggedError e)

/-! ## Per-thread promise chains (src/index.js:364-382)

`threadQueues` maps a thread identifier to the tail promise of its chain.  A
newly admitted unit is scheduled with `prev.then(() => processRequest())`, so
it starts only once the previous tail settles; `processRequest` never rejects
(it catches internally), so settling is always fulfilment.  The labelled
transition system below has one `adm`/`start`/`finish` event per unit; a
`start` for thread `t` is enabled only when no unit of `t` is running and an
admitted unit is waiting, which is exactly the then-chaining discipline. -/

/-- Increment a per-thread counter at one key. -/
def bump (f : String → Nat) (t : String) : String → Nat :=
  fun t' => if t' = t then f t' + 1 else f t'

/-- Chain-scheduler state: per thread, how many units were admitted (chained),
how many have begun executing, and how many have finished. -/
structure ChainSt where
  admitted : String → Nat
  started : String → Nat
  finished : String → Nat

/-- Initial chain state: no units anywhere. -/
def cInit : ChainSt :=
  { admitted := fun _ => 0, started := fun _ => 0, finished := fun _ => 0 }

/-- Chain events: a unit is admitted (chained), begins executing, or settles
(with success flag, which the chain ignores). -/
inductive CAct
  | adm (t : String)
  | start (t : String)
  | finish (t : String) (ok : Bool)

/-- Enabledness: `start t` requires that every started unit of `t` has
finished (the previous tail settled) and an admitted unit is waiting;
`finish t` requires a running unit.  The flag on `finish` is irrelevant:
`prev.then` chaining advances the same way whether the settled unit's body
succeeded or failed, because `processRequest` catches internally. -/
def cEnabled (s : ChainSt) : CAct → Bool
  | CAct.adm _ => true
  | CAct.start t =>
    decide (s.started t = s.finished t) && decide (s.started t < s.admitted t)
  | CAct.finish t _ => decide (s.finished t < s.started t)

/-- Effect of one chain event. -/
def cStep (s : ChainSt) : CAct → ChainSt
  | CAct.adm t => { s with admitted := bump s.admitted t }
  | CAct.start t => { s with started := bump s.started t }
  | CAct.finish t _ => { s with finished := bump s.finished t }

/-- Run a trace of chain events. -/
def cRun (s : ChainSt) (tr : List CAct) : ChainSt := tr.foldl cStep s

/-- A trace is valid when every event is enabled in the state it fires from. -/
def cValid (s : ChainSt) : List CAct → Bool
  | [] => true
  | a :: tr => cEnabled s a && cValid (cStep s a) tr

/-- Is this event a `start` for thread `t`? -/
def isStart (t : String) : CAct → Bool
  | CAct.start t' => t' == t
  | _ => false

/-- Is this event a `finish` for thread `t`? -/
def isFinish (t : String) : CAct → Bool
  | CAct.finish t' _ => t' == t
  | _ => false

/-- Is this event an `adm` for thread `t`? -/
def isAdmit (t : String) : CAct → Bool
  | CAct.adm t' => t' == t
  | _ => false

/-- Number of `start t` events in a trace. -/
def countStart (t : String) (p : List CAct) : Nat := p.countP (isStart t)

/-- Number of `finish t` events in a trace. -/
def countFinish (t : String) (p : List CAct) : Nat := p.countP (isFinish t)

/-- Number of `adm t` events in a trace. -/
def countAdmit (t : String) (p : List CAct) : Nat := p.countP (isAdmit t)

/-! ## Integrated webhook model (active-chat set, warnings, chains)

One event per handler phase of src/index.js:240-387, tracking the state the
claims about `active_chats` and the congestion warning talk about. -/

/-- `redis.sAdd`: append if absent. -/
def sAdd (l : List String) (c : String) : List String :=
  if c ∈ l then l else l ++ [c]

/-- `redis.sCard`. -/
def sCard (l : List String) : Nat := l.length

/-- `redis.sRem`: remove all occurrences. -/
def sRem (l : List String) (c : String) : List String :=
  l.filter (fun x => x != c)

/-- Integrated state of the webhook service (one process):
`chatThreads` is the redis hash `chat_threads`; `queueLens` the hash
`thread_queue_lengths`; `activeChats` the redis set `active_chats`;
`chains` is the in-process `threadQueues` map, as the FIFO list of the chat
identifiers of the units still chained per thread; `immPending` counts
in-flight `processRequest()` calls made on the no-thread path, per chat;
`warnings` and `rejectionNotices` log, in order, the chats that were sent the
congestion warning (src/index.js:261-264) and the "too many requests"
rejection (src/index.js:360). -/
structure WState where
  chatThreads : String → Option String
  queueLens : Store
  activeChats : List String
  chains : String → List String
  immPending : String → Nat
  warnings : List String
  rejectionNotices : List String

/-- Initial webhook state: everything empty. -/
def wInit : WState :=
  { chatThreads := fun _ => none, queueLens := emptyStore, activeChats := [],
    chains := fun _ => [], immPending := fun _ => 0, warnings := [],
    rejectionNotices := [] }

/-- Webhook events: a message arrives and runs the handler front half
(lookup, `sAdd`, warning check, dispatch decision, src/index.js:240-387); a
queued unit of thread `t` completes with success flag `ok` and, on success,
the completion service assigned `newTid` (src/index.js:302 and the `finally`
at 367-381); an immediate (no-thread) unit of `chat` completes
(src/index.js:384-387, which has no `finally`). -/
inductive WEv
  | msg (chat : String)
  | finishT (t : String) (ok : Bool) (newTid : String)
  | finishI (chat : String) (ok : Bool) (newTid : String)

/-- Effect of one webhook event, straight from src/index.js:240-387.  Note
that `sAdd` and the cardinality warning (lines 257-264) run before the
admission check (line 356), so they happen even for rejected messages; the
`finally` of a queued unit releases the counter and, exactly when no further
unit is chained behind it, deletes the local chain and runs
`sRem("active_chats", chatId)` (lines 376-380); the no-thread path calls
`processRequest()` bare, with no release and no `sRem`. -/
def wStep (s : WState) : WEv → WState
  | WEv.msg chat =>
    let active := sAdd s.activeChats chat
    let warns := if 3 ≤ sCard active then s.warnings ++ [chat] else s.warnings
    match s.chatThreads chat with
    | some t =>
      if 3 ≤ hGetD0 s.queueLens t then
        { s with activeChats := active, warnings := warns,
                 rejectionNotices := s.rejectionNotices ++ [chat] }
      else
        { s with activeChats := active, warnings := warns,
                 queueLens := hSet s.queueLens t (hGetD0 s.queueLens t + 1),
                 chains := fun t' => if t' = t then s.chains t' ++ [chat]
                   else s.chains t' }
    | none =>
      { s with activeChats := active, warnings := warns,
               immPending := fun c => if c = chat then s.immPending c + 1
                 else s.immPending c }
  | WEv.finishT t ok newTid =>
    match s.chains t with
    | [] => s
    | chat :: rest =>
      let ct := if ok then (fun c => if c = chat then some newTid
                  else s.chatThreads c)
                else s.chatThreads
      let ql := release s.queueLens t
      if rest.isEmpty then
        { s with chatThreads := ct, queueLens := ql,
                 chains := fun t' => if t' = t then [] else s.chains t',
                 activeChats := sRem s.activeChats chat }
      else
        { s with chatThreads := ct, queueLens := ql,
                 chains := fun t' => if t' = t then rest else s.chains t' }
  | WEv.finishI chat ok newTid =>
    match s.immPending chat with
    | 0 => s
    | Nat.succ n =>
      let ct := if ok then (fun c => if c = chat then some newTid
                  else s.chatThreads c)
                else s.chatThreads
      { s with chatThreads := ct,
               immPending := fun c => if c = chat then n else s.immPending c }

/-- Run a trace of webhook events from the initial state. -/
def wRun (tr : List WEv) : WState := tr.foldl wStep wInit

/-! ## Micro-step model of the hGet/hSet read-modify-write (src/index.js:358-375)

Each of increment-on-admission and decrement-on-release is two separate redis
calls with an `await` (suspension point) between them.  Two concurrent webhook
deliveries A and B for the same thread can therefore interleave their reads
and writes.  The events are: A reads, B reads, A writes, B writes; a write
applies the branch of the code to the value that handler read earlier. -/

/-- Interleaving events of two concurrent handlers. -/
inductive RaceEv
  | rdA
  | rdB
  | wrA
  | wrB

/-- State of two racing admissions for thread `t`: the shared store, each
handler's read `queueLength` (none before its hGet), and whether each handler
admitted its unit. -/
structure AdmitRace where
  store : Store
  readA : Option Int
  readB : Option Int
  admittedA : Bool
  admittedB : Bool

/-- One micro-step of the admission code (src/index.js:358-365): the read is
`hGet`; the write step applies the depth check to the previously read value
and, if below 3, performs the `hSet(read + 1)` and admits. -/
def admitRaceStep (t : String) (s : AdmitRace) : RaceEv → AdmitRace
  | RaceEv.rdA => { s with readA := some (hGetD0 s.store t) }
  | RaceEv.rdB => { s with readB := some (hGetD0 s.store t) }
  | RaceEv.wrA =>
    match s.readA with
    | none => s
    | some v =>
      if 3 ≤ v then s
      else { s with store := hSet s.store t (v + 1), admittedA := true }
  | RaceEv.wrB =>
    match s.readB with
    | none => s
    | some v =>
      if 3 ≤ v then s
      else { s with store := hSet s.store t (v + 1), admittedB := true }

/-- Run racing admission micro-steps. -/
def admitRaceRun (t : String) (s : AdmitRace) (es : List RaceEv) : AdmitRace :=
  es.foldl (admitRaceStep t) s

/-- State of two racing releases for thread `t`. -/
structure RelRace where
  store : Store
  readA : Option Int
  readB : Option Int

/-- One micro-step of the release code (src/index.js:369-375): the read is the
`hGet` with `|| 1` defaulting; the write step applies delete-or-decrement to
the previously read value. -/
def relRaceStep (t : String) (s : RelRace) : RaceEv → RelRace
  | RaceEv.rdA => { s with readA := some (hGetD1 s.store t) }
  | RaceEv.rdB => { s with readB := some (hGetD1 s.store t) }
  | RaceEv.wrA =>
    match s.readA with
    | none => s
    | some v =>
      if v ≤ 1 then { s with store := hDel s.store t }
      else { s with store := hSet s.store t (v - 1) }
  | RaceEv.wrB =>
    match s.readB with
    | none => s
    | some v =>
      if v ≤ 1 then { s with store := hDel s.store t }
      else { s with store := hSet s.store t (v - 1) }

/-- Run racing release micro-steps. -/
def relRaceRun (t : String) (s : RelRace) (es : List RaceEv) : RelRace :=
  es.foldl (relRaceStep t) s

/-- Starting state of the admission race: thread "T" at stored depth 2, two
deliveries for "T" about to run their admission code. -/
def admitRaceInit : AdmitRace :=
  { store := hSet emptyStore "T" 2, readA := none, readB := none,
    admittedA := false, admittedB := false }

/-- Starting state of the release race: thread "T" at stored depth 2, two
`finally` blocks about to run their release code. -/
def relRaceInit : RelRace :=
  { store := hSet emptyStore "T" 2, readA := none, readB := none }

/-! # Theorems -/

/-! ## Store invariant lemmas -/

theorem storeInv_empty : StoreInv emptyStore := by
  intro t n h
  simp [emptyStore] at h

theorem hGetD0_bounds {q : Store} (hq : StoreInv q) (t : String) :
    0 ≤ hGetD0 q t ∧ hGetD0 q t ≤ 3 := by
  unfold hGetD0
  cases hqt : q t with
  | none => simp
  | some m =>
    have := hq t m hqt
    simp only [Option.getD_some]
    omega

theorem hGetD1_bounds {q : Store} (hq : StoreInv q) (t : String) :
    1 ≤ hGetD1 q t ∧ hGetD1 q t ≤ 3 := by
  unfold hGetD1
  cases hqt : q t with
  | none => simp
  | some m =>
    have := hq t m hqt
    simp only [Option.getD_some]
    split <;> omega

theorem storeInv_tryAdmit {q : Store} (hq : StoreInv q) (t : String) :
    StoreInv (tryAdmit q t).2 := by
  intro t' n h
  unfold tryAdmit at h
  by_cases h3 : (3 : Int) ≤ hGetD0 q t
  · rw [if_pos h3] at h
    exact hq t' n h
  · rw [if_neg h3] at h
    replace h : hSet q t (hGetD0 q t + 1) t' = some n := h
    unfold hSet at h
    by_cases ht : t' = t
    · rw [if_pos ht] at h
      injection h with h
      have hb := hGetD0_bounds hq t
      omega
    · rw [if_neg ht] at h
      exact hq t' n h

theorem storeInv_release {q : Store} (hq : StoreInv q) (t : String) :
    StoreInv (release q t) := by
  intro t' n h
  unfold release at h
  by_cases h1 : hGetD1 q t ≤ 1
  · rw [if_pos h1] at h
    unfold hDel at h
    by_cases ht : t' = t
    · rw [if_pos ht] at h
      exact Option.noConfusion h
    · rw [if_neg ht] at h
      exact hq t' n h
  · rw [if_neg h1] at h
    unfold hSet at h
    by_cases ht : t' = t
    · rw [if_pos ht] at h
      injection h with h
      have hb := hGetD1_bounds hq t
      omega
    · rw [if_neg ht] at h
      exact hq t' n h

theorem storeInv_qRunFrom {q : Store} (hq : StoreInv q) (es : List QEv) :
    StoreInv (qRunFrom q es) := by
  induction es generalizing q with
  | nil => exact hq
  | cons e es ih =>
    cases e with
    | adm t => exact ih (storeInv_tryAdmit hq t)
    | rel t => exact ih (storeInv_release hq t)

theorem storeInv_qRun (es : List QEv) : StoreInv (qRun es) :=
  storeInv_qRunFrom storeInv_empty es

/-- Off-key reads are unaffected by `tryAdmit`. -/
theorem tryAdmit_other {q : Store} {t t' : String} (h : t' ≠ t) :
    (tryAdmit q t).2 t' = q t' := by
  unfold tryAdmit
  split
  · rfl
  · exact if_neg h

/-! ## Iterated admissions and releases (for the drain property) -/

theorem qRunFrom_cons (q : Store) (e : QEv) (es : List QEv) :
    qRunFrom q (e :: es) = qRunFrom (qStep q e) es := rfl

theorem qRunFrom_append (q : Store) (es fs : List QEv) :
    qRunFrom q (es ++ fs) = qRunFrom (qRunFrom q es) fs := by
  unfold qRunFrom
  exact List.foldl_append qStep q es fs

theorem qRunFrom_admit_iter (t : String) :
    ∀ (n : Nat) (q : Store) (v : Int), q t = some v → 1 ≤ v → v ≤ 3 →
      qRunFrom q (List.replicate n (QEv.adm t)) t = some (min (v + n) 3) := by
  intro n
  induction n with
  | zero =>
    intro q v hv h1 h3
    simp only [List.replicate, qRunFrom, List.foldl_nil]
    rw [hv]
    congr 1
    push_cast
    omega
  | succ n ih =>
    intro q v hv h1 h3
    rw [List.replicate_succ, qRunFrom_cons]
    show qRunFrom ((tryAdmit q t).2) (List.replicate n (QEv.adm t)) t = _
    unfold tryAdmit
    have hg : hGetD0 q t = v := by simp [hGetD0, hv]
    by_cases hlt : (3 : Int) ≤ hGetD0 q t
    · rw [if_pos hlt]
      have hv3 : v = 3 := by omega
      rw [ih q v hv h1 h3]
      congr 1
      push_cast
      omega
    · rw [if_neg hlt]
      have hv' : hSet q t (hGetD0 q t + 1) t = some (v + 1) := by
        simp [hSet, hg]
      rw [ih _ (v + 1) hv' (by omega) (by omega)]
      congr 1
      push_cast
      omega

theorem qRun_admit_iter (t : String) (n : Nat) :
    qRun (List.replicate n (QEv.adm t)) t
      = if n = 0 then none else some (min (n : Int) 3) := by
  cases n with
  | zero => rfl
  | succ n =>
    rw [if_neg (Nat.succ_ne_zero n)]
    unfold qRun
    rw [List.replicate_succ, qRunFrom_cons]
    have hstep : qStep emptyStore (QEv.adm t) = hSet emptyStore t 1 := by
      show (tryAdmit emptyStore t).2 = _
      unfold tryAdmit
      rw [if_neg (by simp [hGetD0, emptyStore])]
      simp [hGetD0, emptyStore]
    rw [hstep]
    rw [qRunFrom_admit_iter t n (hSet emptyStore t 1) 1 (by simp [hSet])
      (by omega) (by omega)]
    congr 1
    push_cast
    omega

theorem qRunFrom_rel_absent (t : String) :
    ∀ (m : Nat) (q : Store), q t = none →
      qRunFrom q (List.replicate m (QEv.rel t)) t = none := by
  intro m
  induction m with
  | zero =>
    intro q hq
    exact hq
  | succ m ih =>
    intro q hq
    rw [List.replicate_succ, qRunFrom_cons]
    show qRunFrom (release q t) (List.replicate m (QEv.rel t)) t = none
    have h1 : hGetD1 q t = 1 := by simp [hGetD1, hq]
    apply ih
    unfold release
    rw [if_pos (by omega)]
    simp [hDel]

theorem qRunFrom_rel_iter (t : String) :
    ∀ (m : Nat) (q : Store) (v : Int), q t = some v → 1 ≤ v →
      qRunFrom q (List.replicate m (QEv.rel t)) t
        = if (m : Int) < v then some (v - m) else none := by
  intro m
  induction m with
  | zero =>
    intro q v hv h1
    rw [if_pos (by push_cast; omega)]
    simpa using hv
  | succ m ih =>
    intro q v hv h1
    rw [List.replicate_succ, qRunFrom_cons]
    show qRunFrom (release q t) (List.replicate m (QEv.rel t)) t = _
    have hg : hGetD1 q t = v := by
      simp only [hGetD1, hv, Option.getD_some]
      split <;> omega
    by_cases hle : hGetD1 q t ≤ 1
    · have hv1 : v = 1 := by omega
      have hdel : release q t t = none := by
        unfold release
        rw [if_pos hle]
        simp [hDel]
      rw [qRunFrom_rel_absent t m _ hdel]
      rw [if_neg (by push_cast; omega)]
    · have hset : release q t t = some (v - 1) := by
        unfold release
        rw [if_neg hle, hg]
        simp [hSet]
      rw [ih _ (v - 1) hset (by omega)]
      rcases lt_or_ge (m : Int) (v - 1) with hm | hm
      · rw [if_pos hm, if_pos (by push_cast; omega)]
        congr 1
        push_cast
        omega
      · rw [if_neg (by omega), if_neg (by push_cast; omega)]

/-! ## Claim theorems -/

/-- C1: at every state of the counter store reachable by any sequence of
admissions and releases from the empty store, the per-thread depth counter is
at most 3 and never negative (every stored value lies in `[1, 3]`; an absent
key is depth 0); while a thread's counter reads 3, a further admission for it
is rejected and leaves the store unchanged; and the admission outcome for a
distinct thread is unaffected by the first thread's admission. -/
theorem depth_counter_bounded :
    (∀ (es : List QEv) (t : String) (n : Int),
        qRun es t = some n → 1 ≤ n ∧ n ≤ 3)
    ∧ (∀ (q : Store) (t : String), hGetD0 q t = 3 → tryAdmit q t = (false, q))
    ∧ (∀ (q : Store) (t t' : String), t' ≠ t →
        (tryAdmit (tryAdmit q t).2 t').1 = (tryAdmit q t').1) := by
  refine ⟨fun es t n h => storeInv_qRun es t n h, ?_, ?_⟩
  · intro q t h
    unfold tryAdmit
    rw [if_pos (by omega)]
  · intro q t t' hne
    have h2 : hGetD0 ((tryAdmit q t).2) t' = hGetD0 q t' := by
      unfold hGetD0
      rw [tryAdmit_other hne]
    generalize hq2 : (tryAdmit q t).2 = q2 at h2
    unfold tryAdmit
    rw [h2]
    split <;> rfl

/-- Witness for C1 at the spec's scenario: one admission for "T1" yields depth
1 (within bounds); with "T1" at depth 3 a further "T1" admission is rejected
with the store unchanged, while an admission for "T2" is unaffected by it. -/
theorem depth_counter_bounded_witness :
    ((1 : Int) ≤ 1 ∧ (1 : Int) ≤ 3)
    ∧ tryAdmit (hSet emptyStore "T1" 3) "T1" = (false, hSet emptyStore "T1" 3)
    ∧ (tryAdmit (tryAdmit (hSet emptyStore "T1" 3) "T1").2 "T2").1
        = (tryAdmit (hSet emptyStore "T1" 3) "T2").1 :=
  ⟨depth_counter_bounded.1 [QEv.adm "T1"] "T1" 1 (by decide),
   depth_counter_bounded.2.1 (hSet emptyStore "T1" 3) "T1" (by decide),
   depth_counter_bounded.2.2 (hSet emptyStore "T1" 3) "T1" "T2" (by decide)⟩

/-- C5: release deletes the key when the decremented value would be at most 0
and otherwise stores the decremented value; after `n` admissions followed by
`m` releases on an initially idle thread the key holds `min n 3 - m` when
`m < min n 3` and is absent otherwise — in particular after `n` admissions and
`n` releases the key is absent (drain leaves no residue), and the key is
present exactly while released units number fewer than admitted ones. -/
theorem release_drain :
    (∀ (q : Store) (t : String), hGetD1 q t - 1 ≤ 0 → release q t t = none)
    ∧ (∀ (q : Store) (t : String), 1 ≤ hGetD1 q t - 1 →
        release q t t = some (hGetD1 q t - 1))
    ∧ (∀ (t : String) (n m : Nat),
        qRun (List.replicate n (QEv.adm t) ++ List.replicate m (QEv.rel t)) t
          = if (m : Int) < min (n : Int) 3 then some (min (n : Int) 3 - m)
            else none)
    ∧ (∀ (t : String) (n : Nat),
        qRun (List.replicate n (QEv.adm t) ++ List.replicate n (QEv.rel t)) t
          = none) := by
  have h3 : ∀ (t : String) (n m : Nat),
      qRun (List.replicate n (QEv.adm t) ++ List.replicate m (QEv.rel t)) t
        = if (m : Int) < min (n : Int) 3 then some (min (n : Int) 3 - m)
          else none := by
    intro t n m
    show qRunFrom emptyStore _ t = _
    rw [qRunFrom_append]
    by_cases hn : n = 0
    · subst hn
      rw [show qRunFrom emptyStore (List.replicate 0 (QEv.adm t))
            = emptyStore from rfl]
      rw [qRunFrom_rel_absent t m emptyStore rfl]
      rw [if_neg (by push_cast; omega)]
    · have hval := qRun_admit_iter t n
      rw [if_neg hn] at hval
      have hone : (1 : Int) ≤ (n : Int) := by
        have : 1 ≤ n := Nat.one_le_iff_ne_zero.mpr hn
        exact_mod_cast this
      exact qRunFrom_rel_iter t m _ (min (n : Int) 3) hval (by omega)
  refine ⟨?_, ?_, h3, ?_⟩
  · intro q t h
    unfold release
    rw [if_pos (by omega)]
    simp [hDel]
  · intro q t h
    unfold release
    rw [if_neg (by omega)]
    simp [hSet]
  · intro t n
    rw [h3 t n n]
    rw [if_neg (by omega)]

/-- Witness for C5: a release at stored depth 1 deletes the key, and a
release at stored depth 3 stores the decremented value. -/
theorem release_drain_witness :
    release (hSet emptyStore "T" 1) "T" "T" = none
    ∧ release (hSet emptyStore "T" 3) "T" "T"
        = some (hGetD1 (hSet emptyStore "T" 3) "T" - 1) :=
  ⟨release_drain.1 (hSet emptyStore "T" 1) "T" (by decide),
   release_drain.2.1 (hSet emptyStore "T" 3) "T" (by decide)⟩

/-- C2: the webhook dispatch decision — with no stored thread identifier the
unit of work is always admitted and processed immediately with no depth check
and no store change; with a thread identifier at depth at least 3 the user is
notified of rejection and `processRequest` is neither enqueued nor invoked;
otherwise the counter is incremented and the work is enqueued. -/
theorem admission_dispatch_cases :
    (∀ q : Store, handleDispatch q none
        = { dispatch := Dispatch.immediate, store := q,
            notifiedLimit := false, invokesProcessor := true })
    ∧ (∀ (q : Store) (t : String), 3 ≤ hGetD0 q t →
        handleDispatch q (some t)
          = { dispatch := Dispatch.rejected, store := q,
              notifiedLimit := true, invokesProcessor := false })
    ∧ (∀ (q : Store) (t : String), hGetD0 q t < 3 →
        handleDispatch q (some t)
          = { dispatch := Dispatch.enqueued,
              store := hSet q t (hGetD0 q t + 1),
              notifiedLimit := false, invokesProcessor := true }) := by
  refine ⟨fun q => rfl, ?_, ?_⟩
  · intro q t h
    simp only [handleDispatch]
    rw [if_pos h]
  · intro q t h
    simp only [handleDispatch]
    rw [if_neg (by omega)]

/-- Witness for C2: with "T" at depth 3 the message is rejected and notified;
with "T" idle the message is enqueued with the counter incremented. -/
theorem admission_dispatch_cases_witness :
    handleDispatch (hSet emptyStore "T" 3) (some "T")
      = { dispatch := Dispatch.rejected, store := hSet emptyStore "T" 3,
          notifiedLimit := true, invokesProcessor := false }
    ∧ handleDispatch emptyStore (some "T")
      = { dispatch := Dispatch.enqueued,
          store := hSet emptyStore "T" (hGetD0 emptyStore "T" + 1),
          notifiedLimit := false, invokesProcessor := true } :=
  ⟨admission_dispatch_cases.2.1 (hSet emptyStore "T" 3) "T" (by decide),
   admission_dispatch_cases.2.2 emptyStore "T" (by decide)⟩

/-- C9: the claim says a failed lookup of the chat's thread identifier is
treated as "no existing thread" and handling proceeds as a new conversation
(fail open).  In the code the `await redis.hGet("chat_threads", ...)` at
src/index.js:241 is not wrapped in any `try/catch`, so a store failure
propagates out of the handler and the request is aborted: the handler yields
the error and the dispatch decision is never reached, which differs from the
fail-open outcome the claim requires. -/
theorem store_failure_aborts_request :
    webhookDispatch (Except.error ()) emptyStore = Except.error ()
    ∧ webhookDispatch (Except.ok none) emptyStore
        = Except.ok (handleDispatch emptyStore none)
    ∧ webhookDispatch (Except.error ()) emptyStore
        ≠ Except.ok (handleDispatch emptyStore none) := by
  refine ⟨rfl, rfl, ?_⟩
  intro h
  exact Except.noConfusion h

/-! ## Chain-scheduler lemmas -/

theorem cRun_cons (s : ChainSt) (a : CAct) (p : List CAct) :
    cRun s (a :: p) = cRun (cStep s a) p := rfl

theorem cStep_admitted (s : ChainSt) (a : CAct) (t : String) :
    (cStep s a).admitted t = s.admitted t + (if isAdmit t a then 1 else 0) := by
  cases a with
  | adm t' =>
    simp only [cStep, bump, isAdmit]
    by_cases h : t = t'
    · subst h
      simp
    · rw [if_neg h, if_neg (by simp [beq_iff_eq]; exact fun hh => h hh.symm)]
      rfl
  | start t' => simp [cStep, isAdmit]
  | finish t' ok => simp [cStep, isAdmit]

theorem cStep_started (s : ChainSt) (a : CAct) (t : String) :
    (cStep s a).started t = s.started t + (if isStart t a then 1 else 0) := by
  cases a with
  | start t' =>
    simp only [cStep, bump, isStart]
    by_cases h : t = t'
    · subst h
      simp
    · rw [if_neg h, if_neg (by simp [beq_iff_eq]; exact fun hh => h hh.symm)]
      rfl
  | adm t' => simp [cStep, isStart]
  | finish t' ok => simp [cStep, isStart]

theorem cStep_finished (s : ChainSt) (a : CAct) (t : String) :
    (cStep s a).finished t = s.finished t + (if isFinish t a then 1 else 0) := by
  cases a with
  | finish t' ok =>
    simp only [cStep, bump, isFinish]
    by_cases h : t = t'
    · subst h
      simp
    · rw [if_neg h, if_neg (by simp [beq_iff_eq]; exact fun hh => h hh.symm)]
      rfl
  | adm t' => simp [cStep, isFinish]
  | start t' => simp [cStep, isFinish]

theorem cRun_admitted (t : String) :
    ∀ (p : List CAct) (s : ChainSt),
      (cRun s p).admitted t = s.admitted t + countAdmit t p := by
  intro p
  induction p with
  | nil =>
    intro s
    simp [cRun, countAdmit]
  | cons a p ih =>
    intro s
    rw [cRun_cons, ih, cStep_admitted]
    simp only [countAdmit, List.countP_cons]
    omega

theorem cRun_started (t : String) :
    ∀ (p : List CAct) (s : ChainSt),
      (cRun s p).started t = s.started t + countStart t p := by
  intro p
  induction p with
  | nil =>
    intro s
    simp [cRun, countStart]
  | cons a p ih =>
    intro s
    rw [cRun_cons, ih, cStep_started]
    simp only [countStart, List.countP_cons]
    omega

theorem cRun_finished (t : String) :
    ∀ (p : List CAct) (s : ChainSt),
      (cRun s p).finished t = s.finished t + countFinish t p := by
  intro p
  induction p with
  | nil =>
    intro s
    simp [cRun, countFinish]
  | cons a p ih =>
    intro s
    rw [cRun_cons, ih, cStep_finished]
    simp only [countFinish, List.countP_cons]
    omega

theorem cValid_append :
    ∀ (p q : List CAct) (s : ChainSt),
      cValid s (p ++ q) = (cValid s p && cValid (cRun s p) q) := by
  intro p
  induction p with
  | nil =>
    intro q s
    simp [cValid, cRun]
  | cons a p ih =>
    intro q s
    simp only [List.cons_append, cValid, List.append_eq]
    rw [ih, cRun_cons, Bool.and_assoc]

/-- C3: in every valid chain trace, at the moment any `start` for thread `t`
fires, the number of started units of `t` equals the number of finished units
of `t` (so the units of one thread execute strictly one after the other, in
the order they were chained, each start waiting for the previous completion)
and stays below the number admitted; and units of two distinct threads have
no ordering constraint: both start orders are realizable by valid traces. -/
theorem per_thread_serialization :
    (∀ (p q' : List CAct) (t : String),
        cValid cInit (p ++ CAct.start t :: q') = true →
          countStart t p = countFinish t p ∧ countStart t p < countAdmit t p)
    ∧ cValid cInit [CAct.adm "A", CAct.adm "B", CAct.start "A",
        CAct.start "B"] = true
    ∧ cValid cInit [CAct.adm "A", CAct.adm "B", CAct.start "B",
        CAct.start "A"] = true := by
  refine ⟨?_, by decide, by decide⟩
  intro p q' t h
  rw [cValid_append] at h
  rw [Bool.and_eq_true] at h
  obtain ⟨hp, hq⟩ := h
  simp only [cValid, Bool.and_eq_true] at hq
  obtain ⟨hen, _⟩ := hq
  simp only [cEnabled, Bool.and_eq_true, decide_eq_true_eq] at hen
  obtain ⟨heq, hlt⟩ := hen
  have hs := cRun_started t p cInit
  have hf := cRun_finished t p cInit
  have ha := cRun_admitted t p cInit
  rw [show cInit.started t = 0 from rfl, Nat.zero_add] at hs
  rw [show cInit.finished t = 0 from rfl, Nat.zero_add] at hf
  rw [show cInit.admitted t = 0 from rfl, Nat.zero_add] at ha
  exact ⟨by omega, by omega⟩

/-- Witness for C3: after two admissions, a start and a finish on thread "A", a second
start for "A" is valid, and at that point started = finished = 1 < 2 =
admitted. -/
theorem per_thread_serialization_witness :
    countStart "A" [CAct.adm "A", CAct.adm "A", CAct.start "A",
        CAct.finish "A" true]
      = countFinish "A" [CAct.adm "A", CAct.adm "A", CAct.start "A",
        CAct.finish "A" true]
    ∧ countStart "A" [CAct.adm "A", CAct.adm "A", CAct.start "A",
        CAct.finish "A" true]
      < countAdmit "A" [CAct.adm "A", CAct.adm "A", CAct.start "A",
        CAct.finish "A" true] :=
  per_thread_serialization.1
    [CAct.adm "A", CAct.adm "A", CAct.start "A", CAct.finish "A" true]
    [] "A" (by decide)

/-- C4: a failing unit of work is contained — `processRequest` catches any
body failure and returns normally (so its promise fulfills and the completion
signal fires); the chain semantics is identical for a failed and a successful
completion, so the next chained unit executes the same way; a concrete valid
trace runs a second unit after a failed first one; and in the integrated
model the `finally` effects of a queued unit's completion (counter release,
drain detection, active-set cleanup) are independent of the success flag, the
release being applied whenever a unit was chained. -/
theorem failure_containment :
    (∀ e : String, processRequest (Except.error e) = ProcOut.loggedError e)
    ∧ (∀ (s : ChainSt) (t : String),
        cStep s (CAct.finish t true) = cStep s (CAct.finish t false)
        ∧ cEnabled s (CAct.finish t true) = cEnabled s (CAct.finish t false))
    ∧ cValid cInit [CAct.adm "A", CAct.adm "A", CAct.start "A",
        CAct.finish "A" false, CAct.start "A", CAct.finish "A" true] = true
    ∧ (∀ (s : WState) (t tid : String),
        (wStep s (WEv.finishT t false tid)).queueLens
            = (wStep s (WEv.finishT t true tid)).queueLens
        ∧ (wStep s (WEv.finishT t false tid)).activeChats
            = (wStep s (WEv.finishT t true tid)).activeChats
        ∧ (wStep s (WEv.finishT t false tid)).chains
            = (wStep s (WEv.finishT t true tid)).chains
        ∧ (wStep s (WEv.finishT t false tid)).queueLens
            = (match s.chains t with
               | [] => s.queueLens
               | _ :: _ => release s.queueLens t)) := by
  refine ⟨fun e => rfl, fun s t => ⟨rfl, rfl⟩, by decide, ?_⟩
  intro s t tid
  cases hc : s.chains t with
  | nil =>
    refine ⟨?_, ?_, ?_, ?_⟩ <;> simp [wStep, hc]
  | cons chat rest =>
    cases hr : rest.isEmpty <;>
      refine ⟨?_, ?_, ?_, ?_⟩ <;> simp [wStep, hc, hr]

/-- C6: the claim says every read-modify-write of the depth counter is one
atomic store operation, so interleaved deliveries never lose an update and
never leak a key.  The code instead issues a separate `hGet` and `hSet` with
suspension points between them (src/index.js:358-365 and 369-375).  With
thread "T" at depth 2: two interleaved admissions both read 2 and both write
3, so both are admitted yet the counter rises by only 1 (a lost update — 4
admitted-but-unreleased units while the counter reads 3), whereas under
atomic sequential execution the second admission is rejected; and two
interleaved releases both read 2 and both write 1, leaving the key present at
1 after all work drained (a leaked key), whereas sequential releases delete
it. -/
theorem rmw_not_atomic_lost_update :
    ((admitRaceRun "T" admitRaceInit
        [RaceEv.rdA, RaceEv.rdB, RaceEv.wrA, RaceEv.wrB]).admittedA = true
      ∧ (admitRaceRun "T" admitRaceInit
        [RaceEv.rdA, RaceEv.rdB, RaceEv.wrA, RaceEv.wrB]).admittedB = true
      ∧ (admitRaceRun "T" admitRaceInit
        [RaceEv.rdA, RaceEv.rdB, RaceEv.wrA, RaceEv.wrB]).store "T" = some 3)
    ∧ (tryAdmit (tryAdmit (hSet emptyStore "T" 2) "T").2 "T").1 = false
    ∧ (relRaceRun "T" relRaceInit
        [RaceEv.rdA, RaceEv.rdB, RaceEv.wrA, RaceEv.wrB]).store "T" = some 1
    ∧ release (release (hSet emptyStore "T" 2) "T") "T" "T" = none := by
  refine ⟨⟨?_, ?_, ?_⟩, ?_, ?_, ?_⟩ <;> decide

/-- Helper: a chat is a member of the set it was just added to. -/
theorem mem_sAdd_self (l : List String) (c : String) : c ∈ sAdd l c := by
  unfold sAdd
  by_cases h : c ∈ l
  · rw [if_pos h]
    exact h
  · rw [if_neg h]
    exact List.mem_append_right l (List.mem_singleton_self c)

/-- C7 counterexample: the claim says a chat is in the active set iff it has
pending or in-flight work, and in particular that a chat whose only unit of
work has completed is no longer in the set.  Run one message from chat "C"
with no stored thread (the no-thread immediate path, src/index.js:384-387)
and let its processing complete: "C" is still in `active_chats` although it
has no pending immediate unit and every chain is empty — the no-thread path
has no `finally` and never runs `sRem`. -/
theorem active_set_residue_counterexample :
    "C" ∈ (wRun [WEv.msg "C", WEv.finishI "C" true "T"]).activeChats
    ∧ (wRun [WEv.msg "C", WEv.finishI "C" true "T"]).immPending "C" = 0
    ∧ (wRun [WEv.msg "C", WEv.finishI "C" true "T"]).chains = (fun _ => []) := by
  refine ⟨by decide, by decide, ?_⟩
  funext t
  rfl

/-- C7 (amended): a chat identifier is added to the active-chat set on every
handled message (before and regardless of the admission decision); it is
removed exactly when a queued unit completes and no further unit is chained
behind it on that thread's local chain (then the finishing unit's chat is
removed); completions on the no-thread immediate path never remove the chat,
so membership can outlive the chat's last unit of work. -/
theorem active_set_membership_amended :
    (∀ (s : WState) (chat : String),
        chat ∈ (wStep s (WEv.msg chat)).activeChats)
    ∧ (∀ (s : WState) (t tid : String) (ok : Bool),
        (wStep s (WEv.finishT t ok tid)).activeChats
          = (match s.chains t with
             | [] => s.activeChats
             | chat :: rest =>
               if rest.isEmpty then sRem s.activeChats chat
               else s.activeChats))
    ∧ (∀ (s : WState) (chat tid : String) (ok : Bool),
        (wStep s (WEv.finishI chat ok tid)).activeChats = s.activeChats) := by
  refine ⟨?_, ?_, ?_⟩
  · intro s chat
    have hmem : chat ∈ sAdd s.activeChats chat := mem_sAdd_self _ _
    cases hct : s.chatThreads chat with
    | none => simpa [wStep, hct] using hmem
    | some t =>
      by_cases h3 : 3 ≤ hGetD0 s.queueLens t
      · simpa [wStep, hct, h3] using hmem
      · simpa [wStep, hct, h3] using hmem
  · intro s t tid ok
    cases hc : s.chains t with
    | nil => simp [wStep, hc]
    | cons chat rest =>
      cases hr : rest.isEmpty <;> simp [wStep, hc, hr]
  · intro s chat tid ok
    cases hp : s.immPending chat with
    | zero => simp [wStep, hp]
    | succ n => simp [wStep, hp]

/-- C8 counterexample: the claim says the congestion notice fires exactly once
for the admitting request and is not repeated on subsequent messages from the
same chat while the cardinality stays at least 3.  With three distinct chats
"A", "B", "C", the third message brings the cardinality to 3 and warns "C";
a fourth message, again from "C", finds cardinality still 3 and warns "C" a
second time: the warning log is ["C", "C"]. -/
theorem congestion_warning_repeats_counterexample :
    (wRun [WEv.msg "A", WEv.msg "B", WEv.msg "C", WEv.msg "C"]).warnings
      = ["C", "C"]
    ∧ ((wRun [WEv.msg "A", WEv.msg "B", WEv.msg "C", WEv.msg "C"]).warnings.count
        "C") = 2 := by
  exact ⟨by decide, by decide⟩

/-- C8 (amended): on every handled message, the congestion notice is sent to
the triggering chat exactly when the active-set cardinality after adding that
chat is at least 3 (so it repeats on subsequent messages while the cardinality
stays at least 3), and the notice never blocks admission: the counter update
and the rejection decision are exactly those of the admission check, unaffected
by whether the warning fired. -/
theorem congestion_warning_amended :
    (∀ (s : WState) (chat : String),
        (wStep s (WEv.msg chat)).warnings
          = s.warnings
            ++ (if 3 ≤ sCard (sAdd s.activeChats chat) then [chat] else []))
    ∧ (∀ (s : WState) (chat : String),
        (wStep s (WEv.msg chat)).queueLens
          = (match s.chatThreads chat with
             | none => s.queueLens
             | some t =>
               if 3 ≤ hGetD0 s.queueLens t then s.queueLens
               else hSet s.queueLens t (hGetD0 s.queueLens t + 1)))
    ∧ (∀ (s : WState) (chat : String),
        (wStep s (WEv.msg chat)).rejectionNotices
          = (match s.chatThreads chat with
             | none => s.rejectionNotices
             | some t =>
               if 3 ≤ hGetD0 s.queueLens t
               then s.rejectionNotices ++ [chat]
               else s.rejectionNotices)) := by
  refine ⟨?_, ?_, ?_⟩ <;> intro s chat <;>
    cases hct : s.chatThreads chat with
    | none =>
      by_cases hw : 3 ≤ sCard (sAdd s.activeChats chat) <;>
        simp [wStep, hct, hw]
    | some t =>
      by_cases h3 : 3 ≤ hGetD0 s.queueLens t <;>
        by_cases hw : 3 ≤ sCard (sAdd s.activeChats chat) <;>
          simp [wStep, hct, h3, hw]

/-- C10: `sendNotification` never throws or rejects — for every outcome of the
relay call it returns a plain value, `ok` with the relay payload on success
and `err` with the message on failure. -/
theorem sendNotification_never_rejects :
    (∀ r : TgResponse, sendNotification (Except.ok r) = SendRes.ok r.result)
    ∧ (∀ e : String, sendNotification (Except.error e) = SendRes.err e)
    ∧ (∀ post : Except String TgResponse,
        (∃ d, sendNotification post = SendRes.ok d)
        ∨ (∃ m, sendNotification post = SendRes.err m)) := by
  refine ⟨fun r => rfl, fun e => rfl, ?_⟩
  intro post
  cases post with
  | ok r => exact Or.inl ⟨r.result, rfl⟩
  | error e => exact Or.inr ⟨e, rfl⟩

end TelegramBot
